import Mathlib

/- Verification of the minimq MQTT client engine (src/mqtt_client.rs).
   The client orchestrator (publish / poll / reset / handle_packet) is embedded
   directly from src/mqtt_client.rs.  Its collaborators (session state, the
   incremental packet reader, the wire codec) are not among the sources, so they
   are modelled from the design document, as indicated on each definition. -/

namespace Minimq

/- ===== Error taxonomy, src/mqtt_client.rs lines 33-57 ===== -/

inductive ProtocolError where
  | Bounds
  | DataSize
  | Invalid
  | PacketSize
  | EmptyPacket
  | Failed
  | PartialPacket
  | InvalidState
  | MalformedPacket
  | MalformedInteger
  | UnknownProperty
  | UnsupportedPacket
deriving DecidableEq

inductive Error (E : Type) where
  | Network (e : E)
  | WriteFail
  | Disconnected
  | Invalid
  | Failed
  | Protocol (pe : ProtocolError)
deriving DecidableEq

/- ===== Session state ===== -/

/-- Modelled from the spec: SessionState (§3) — the file session_state.rs is not
among the sources.  Broker address, bounded client identifier, keep-alive
interval, connected flag, next outgoing packet identifier (16-bit).  The broker
address plays no role in any verified property and is omitted. -/
structure SessionState where
  client_id : List Nat
  keep_alive_interval : Nat
  connected : Bool
  packet_identifier : Nat
deriving DecidableEq

/-- Modelled from the spec: session state is reset on every reconnect (§3);
the connected flag is cleared and the identifier sequence restarts. -/
def SessionState.reset (s : SessionState) : SessionState :=
  { s with connected := false, packet_identifier := 1 }

/-- Modelled from the spec: accessor for the outstanding packet identifier. -/
def SessionState.get_packet_identifier (s : SessionState) : Nat :=
  s.packet_identifier

/-- Modelled from the spec: the 16-bit identifier counter advances after a
matching acknowledgment is validated (§3). -/
def SessionState.increment_packet_identifier (s : SessionState) : SessionState :=
  { s with packet_identifier := (s.packet_identifier + 1) % 65536 }

/- ===== Remaining-length integer and frame boundaries (spec §4.1, §6) ===== -/

/-- Modelled from the spec: decoder for the self-describing remaining-length
integer (1-4 bytes, 7 data bits per byte, high bit = continuation, §6).
Returns the decoded value together with the total byte count consumed
(the accumulator count is included); fails past 4 continuation bytes or on
byte exhaustion. -/
def decodeRLAux : List Nat → Nat → Nat → Nat → Option (Nat × Nat)
  | [], _, _, _ => none
  | b :: rest, mult, acc, count =>
    if 4 ≤ count then none
    else if b < 128 then some (acc + b % 128 * mult, count + 1)
    else decodeRLAux rest (mult * 128) (acc + b % 128 * mult) (count + 1)

/-- Modelled from the spec: the total size of the frame starting at the front
of the byte sequence — one fixed-header byte, the remaining-length prefix, and
the declared remaining length (§4.2, §6); none while the prefix is incomplete. -/
def frameSize? (bs : List Nat) : Option Nat :=
  match bs with
  | [] => none
  | _ :: rest =>
    match decodeRLAux rest 1 0 0 with
    | some (v, k) => some (1 + k + v)
    | none => none

/-- Modelled from the spec: frame availability on a raw buffer — true exactly
when the prefix is fully present and the buffered length is at least the prefix
length plus the declared remaining length (§4.2). -/
def availB (bs : List Nat) : Bool :=
  match frameSize? bs with
  | some n => decide (n ≤ bs.length)
  | none => false

/- ===== Packet reader ===== -/

/-- Modelled from the spec: the Packet Reader state (§4.2) — a fixed-capacity
accumulation buffer; the frame-boundary metadata is recomputed from the buffer
front (the reader reparses the prefix after every append). -/
structure PacketReader where
  buffer : List Nat
deriving DecidableEq

/-- Modelled from the spec: frame availability of the reader (§4.2). -/
def PacketReader.packet_available (r : PacketReader) : Bool :=
  availB r.buffer

/-- Modelled from the spec: the byte-by-byte accumulation loop behind append —
bytes are pushed while no complete frame is present, so append consumes at most
up to the next frame boundary (this is what lets one poll drain several frames
from a single read, §4.2/§4.4); pushing into a full buffer whose frame is still
incomplete is the Bounds protocol violation (§4.2). -/
def slurpAux (cap : Nat) : List Nat → List Nat → Nat → Except ProtocolError (List Nat × Nat)
  | buf, chunk, consumed =>
    if availB buf then .ok (buf, consumed)
    else
      match chunk with
      | [] => .ok (buf, consumed)
      | b :: rest =>
        if buf.length < cap then slurpAux cap (buf ++ [b]) rest (consumed + 1)
        else .error ProtocolError.Bounds

/-- Modelled from the spec: append(chunk) → bytes_consumed (§4.2). -/
def PacketReader.slurp (r : PacketReader) (cap : Nat) (chunk : List Nat) :
    Except ProtocolError (PacketReader × Nat) :=
  (slurpAux cap r.buffer chunk 0).map fun p => (⟨p.1⟩, p.2)

/-- Modelled from the spec: pop_frame discards the consumed frame's bytes from
the front and shifts any trailing bytes to offset 0 (§4.2). -/
def PacketReader.pop_packet (r : PacketReader) : Except ProtocolError PacketReader :=
  match frameSize? r.buffer with
  | some n =>
    if n ≤ r.buffer.length then .ok ⟨r.buffer.drop n⟩ else .error ProtocolError.PartialPacket
  | none => .error ProtocolError.EmptyPacket

/-- Modelled from the spec: payload() exposes the current frame's payload slice
(the bytes after the fixed header and the remaining-length prefix, §4.2);
it is an error when no complete frame is buffered. -/
def PacketReader.payload (r : PacketReader) : Except ProtocolError (List Nat) :=
  match r.buffer with
  | [] => .error ProtocolError.EmptyPacket
  | _ :: rest =>
    match decodeRLAux rest 1 0 0 with
    | some (v, k) =>
      if 1 + k + v ≤ r.buffer.length then .ok ((r.buffer.drop (1 + k)).take v)
      else .error ProtocolError.PartialPacket
    | none => .error ProtocolError.PartialPacket

/-- Modelled from the spec: reset() discards all buffered bytes and boundary
state unconditionally (§4.2). -/
def PacketReader.reset (_r : PacketReader) : PacketReader :=
  ⟨[]⟩

/- ===== Received packets and the decoder (spec §3, §4.1) ===== -/

/-- Modelled from the spec: topic view of a received publish (§3); the minimq
PubInfo record copies the topic bytes into a bounded field. -/
structure PubInfo where
  topic : List Nat
deriving DecidableEq

/-- Modelled from the spec: tagged union over the inbound kinds (§3) —
connection-acknowledgment (session-present flag, reason code),
subscription-acknowledgment (packet identifier, reason code), publish. -/
inductive ReceivedPacket where
  | ConnAck (session_present : Bool) (reason_code : Nat)
  | Publish (info : PubInfo)
  | SubAck (packet_identifier : Nat) (reason_code : Nat)
deriving DecidableEq

/-- Modelled from the spec: decode a complete raw frame (§4.1) — read the type
from the fixed header's high bits, the remaining-length prefix, then dispatch
per type (2 = connection-acknowledgment, 3 = publish, 9 =
subscription-acknowledgment); any unrecognized type fails UnsupportedPacket. -/
def parse_frame (frame : List Nat) : Except ProtocolError ReceivedPacket :=
  match frame with
  | [] => .error ProtocolError.EmptyPacket
  | h :: rest =>
    match decodeRLAux rest 1 0 0 with
    | none => .error ProtocolError.MalformedInteger
    | some (v, k) =>
      let body := (rest.drop k).take v
      if h / 16 = 2 then
        match body with
        | flags :: rc :: _ => .ok (.ConnAck (flags % 2 = 1) rc)
        | _ => .error ProtocolError.MalformedPacket
      else if h / 16 = 3 then
        match body with
        | t1 :: t2 :: tr =>
          if t1 * 256 + t2 ≤ tr.length then .ok (.Publish ⟨tr.take (t1 * 256 + t2)⟩)
          else .error ProtocolError.MalformedPacket
        | _ => .error ProtocolError.MalformedPacket
      else if h / 16 = 9 then
        match body with
        | i1 :: i2 :: rc :: _ => .ok (.SubAck (i1 * 256 + i2) rc)
        | _ => .error ProtocolError.MalformedPacket
      else .error ProtocolError.UnsupportedPacket

/-- Modelled from the spec: parse_message decodes the complete frame at the
front of the reader's buffer (§4.1); a partial frame is an error. -/
def parse_message (r : PacketReader) : Except ProtocolError ReceivedPacket :=
  match frameSize? r.buffer with
  | some n =>
    if n ≤ r.buffer.length then parse_frame (r.buffer.take n)
    else .error ProtocolError.PartialPacket
  | none => .error ProtocolError.PartialPacket

/- ===== Encoders (spec §4.1) ===== -/

/-- Modelled from the spec: encoder of the remaining-length integer, 1-4 bytes,
7 data bits per byte, high bit = continuation (§4.1, §6). -/
def encodeRL (n : Nat) : List Nat :=
  if n < 128 then [n]
  else if n < 16384 then [n % 128 + 128, n / 128]
  else if n < 2097152 then [n % 128 + 128, n / 128 % 128 + 128, n / 16384]
  else [n % 128 + 128, n / 128 % 128 + 128, n / 16384 % 128 + 128, n / 2097152]

/-- Modelled from the spec: 2-byte big-endian length/identifier field (§6). -/
def u16be (n : Nat) : List Nat :=
  [n / 256 % 256, n % 256]

/-- Modelled from the spec: encode_publish (§4.1) — fixed header (publish,
at-most-once), length-prefixed topic, raw payload, remaining-length prefix;
DataSize when the result exceeds the buffer capacity. -/
def publish_message (cap : Nat) (topic : List Nat) (payload : List Nat) :
    Except ProtocolError (List Nat) :=
  let body := u16be topic.length ++ topic ++ payload
  let msg := 48 :: encodeRL body.length ++ body
  if msg.length ≤ cap then .ok msg else .error ProtocolError.DataSize

/-- Modelled from the spec: encode_connect (§4.1) — fixed header, protocol
identification, connect flags (clean session), 2-byte big-endian keep-alive,
length-prefixed client identifier, remaining-length prefix; DataSize when the
result exceeds the buffer capacity. -/
def connect_message (cap : Nat) (client_id : List Nat) (keep_alive : Nat) :
    Except ProtocolError (List Nat) :=
  let body :=
    u16be 4 ++ [77, 81, 84, 84] ++ [5, 2] ++ u16be keep_alive ++ [0] ++
      u16be client_id.length ++ client_id
  let msg := 16 :: encodeRL body.length ++ body
  if msg.length ≤ cap then .ok msg else .error ProtocolError.DataSize

/- ===== Transport collaborator and observable actions (spec §6) ===== -/

/-- Modelled from the spec: one-shot outcomes of the transport collaborator's
primitives (§6) for a single client call.  read and write run to completion
(the source unwraps their transport errors), so only open/connect/close and the
connectivity check can surface a transport error. -/
structure Transport (E : Type) where
  is_connected : Except E Bool
  close_result : Except E Unit
  open_result : Except E Unit
  connect_result : Except E Unit
  write_result : List Nat → Nat
  read_result : List Nat

/-- Observable actions of one client call: socket lifecycle operations, a
transport write of the given bytes, a transport read returning the given bytes,
and the dispatch of one decoded packet. -/
inductive Action where
  | closeSock
  | openSock
  | connectSock
  | writeS (bytes : List Nat)
  | readS (bytes : List Nat)
  | handleS (p : ReceivedPacket)
deriving DecidableEq

/- ===== The client, src/mqtt_client.rs lines 21-31 ===== -/

/-- The MqttClient record (src/mqtt_client.rs lines 21-31): session state,
packet reader and transmit buffer; cap is the fixed capacity type parameter T
sizing the reader and transmit buffers.  The socket slot and network stack are
represented by the Transport oracle passed to each operation. -/
structure Client where
  cap : Nat
  state : SessionState
  packet_reader : PacketReader
  transmit_buffer : List Nat
deriving DecidableEq

/-- MqttClient::write (lines 105-118): the transport writes, and a short write
is the WriteFail error. -/
def writeStep {E : Type} (t : Transport E) (buf : List Nat) : Option (Error E) :=
  if t.write_result buf ≠ buf.length then some Error.WriteFail else none

/-- MqttClient::connect_socket (lines 158-180): when new_socket holds, close
the stale socket and open a fresh one, then connect to the broker; transport
errors propagate. -/
def connect_socket {E : Type} (t : Transport E) (new_socket : Bool) :
    List Action × Option (Error E) :=
  if new_socket then
    match t.close_result with
    | .error e => ([Action.closeSock], some (Error.Network e))
    | .ok _ =>
      match t.open_result with
      | .error e => ([Action.closeSock, Action.openSock], some (Error.Network e))
      | .ok _ =>
        match t.connect_result with
        | .error e =>
          ([Action.closeSock, Action.openSock, Action.connectSock], some (Error.Network e))
        | .ok _ => ([Action.closeSock, Action.openSock, Action.connectSock], none)
  else
    match t.connect_result with
    | .error e => ([Action.connectSock], some (Error.Network e))
    | .ok _ => ([Action.connectSock], none)

/-- MqttClient::reset (lines 146-156): reconnect the socket, reset session
state and packet reader, then encode a CONNECT frame into the transmit buffer
and write it. -/
def Client.reset {E : Type} (t : Transport E) (c : Client) :
    Client × List Action × Option (Error E) :=
  match connect_socket t true with
  | (tr, some e) => (c, tr, some e)
  | (tr, none) =>
    let c1 : Client :=
      { c with state := c.state.reset, packet_reader := c.packet_reader.reset }
    match connect_message c1.cap c1.state.client_id c1.state.keep_alive_interval with
    | .error pe => (c1, tr, some (Error.Protocol pe))
    | .ok msg =>
      let c2 : Client := { c1 with transmit_buffer := msg ++ c1.transmit_buffer.drop msg.length }
      (c2, tr ++ [Action.writeS msg], writeStep t msg)

/-- MqttClient::publish (lines 122-133): a silent no-op when the transport
reports the socket not connected; otherwise encode the publish frame into the
transmit buffer and write it, with no protocol-state check. -/
def Client.publish {E : Type} (t : Transport E) (c : Client)
    (topic : List Nat) (payload : List Nat) :
    Client × List Action × Option (Error E) :=
  match t.is_connected with
  | .error e => (c, [], some (Error.Network e))
  | .ok false => (c, [], none)
  | .ok true =>
    match publish_message c.cap topic payload with
    | .error pe => (c, [], some (Error.Protocol pe))
    | .ok msg =>
      let c1 : Client := { c with transmit_buffer := msg ++ c.transmit_buffer.drop msg.length }
      (c1, [Action.writeS msg], writeStep t msg)

/-- MqttClient::handle_packet (lines 182-237): while not connected only a
connection-acknowledgment is accepted — non-zero reason code or a present
session fail, otherwise the session is freshly reset and marked connected;
while connected a publish is delivered to the handler with the reader's
payload, a subscription-acknowledgment is validated against the outstanding
identifier, and anything else is Invalid. -/
def Client.handle_packet (E : Type) (c : Client) (p : ReceivedPacket) :
    Client × List (PubInfo × List Nat) × Option (Error E) :=
  if c.state.connected = false then
    match p with
    | .ConnAck sp rc =>
      if rc ≠ 0 then (c, [], some Error.Failed)
      else if sp then (c, [], some Error.Failed)
      else
        let c1 : Client := { c with state := c.state.reset }
        ({ c1 with state := { c1.state with connected := true } }, [], none)
    | _ => (c, [], some (Error.Protocol ProtocolError.Invalid))
  else
    match p with
    | .Publish info =>
      match c.packet_reader.payload with
      | .error pe => (c, [], some (Error.Protocol pe))
      | .ok pl => (c, [(info, pl)], none)
    | .SubAck pid rc =>
      if pid ≠ c.state.get_packet_identifier then (c, [], some Error.Invalid)
      else if rc ≠ 0 then (c, [], some Error.Failed)
      else ({ c with state := c.state.increment_packet_identifier }, [], none)
    | _ => (c, [], some Error.Invalid)

/-- MqttClient::poll's inbound processing loop (lines 253-274): while bytes of
the current read remain, append them to the packet reader (a failed append
resets the connection and yields Disconnected); when a packet is available,
decode it, pop it, and dispatch it.  The fuel argument only bounds the
iteration count; poll supplies fuel exceeding the loop's decreasing measure
(two times the unprocessed bytes plus the buffered bytes), so the exhaustion
arm is never reached. -/
def pollLoop {E : Type} (t : Transport E) :
    Nat → Client → List Nat →
      Client × List Action × List (PubInfo × List Nat) × Option (Error E)
  | _, c, [] => (c, [], [], none)
  | 0, c, _ :: _ => (c, [], [], some (Error.Protocol ProtocolError.InvalidState))
  | fuel + 1, c, b :: rest =>
    match c.packet_reader.slurp c.cap (b :: rest) with
    | .error _ =>
      match c.reset t with
      | (c1, tr, e) => (c1, tr, [], some (e.getD Error.Disconnected))
    | .ok (r1, count) =>
      let c1 : Client := { c with packet_reader := r1 }
      if c1.packet_reader.packet_available then
        match parse_message c1.packet_reader with
        | .error pe => (c1, [], [], some (Error.Protocol pe))
        | .ok pkt =>
          match c1.packet_reader.pop_packet with
          | .error pe => (c1, [], [], some (Error.Protocol pe))
          | .ok r2 =>
            let c2 : Client := { c1 with packet_reader := r2 }
            match Client.handle_packet E c2 pkt with
            | (c3, dl, some e) => (c3, [Action.handleS pkt], dl, some e)
            | (c3, dl, none) =>
              match pollLoop t fuel c3 ((b :: rest).drop count) with
              | (c4, tr4, dl4, e4) =>
                (c4, Action.handleS pkt :: tr4, dl ++ dl4, e4)
      else
        pollLoop t fuel c1 ((b :: rest).drop count)

/-- MqttClient::poll (lines 239-277): when the transport reports the socket
disconnected, perform a full reconnection and return; otherwise perform one
transport read into the fixed 1024-byte stack buffer and run the inbound
processing loop on the bytes obtained. -/
def Client.poll {E : Type} (t : Transport E) (c : Client) :
    Client × List Action × List (PubInfo × List Nat) × Option (Error E) :=
  match t.is_connected with
  | .error e => (c, [], [], some (Error.Network e))
  | .ok false =>
    match c.reset t with
    | (c1, tr, e) => (c1, tr, [], e)
  | .ok true =>
    let buf := t.read_result.take 1024
    match pollLoop t (2 * buf.length + c.packet_reader.buffer.length + 1) c buf with
    | (c1, tr, dl, e) => (c1, Action.readS buf :: tr, dl, e)

/-- Packets dispatched during a call, in order, read off the action trace. -/
def handles (tr : List Action) : List ReceivedPacket :=
  tr.filterMap fun a =>
    match a with
    | Action.handleS p => some p
    | _ => none

/-- Greedy decomposition of a byte sequence into its leading complete frames
(fuelled by the length, which bounds the number of frames). -/
def splitFramesAux : Nat → List Nat → List (List Nat)
  | 0, _ => []
  | fuel + 1, bs =>
    match frameSize? bs with
    | some n =>
      if n ≤ bs.length ∧ 1 ≤ n then bs.take n :: splitFramesAux fuel (bs.drop n)
      else []
    | none => []

/-- The ordered list of complete frames at the front of a byte sequence. -/
def splitFrames (bs : List Nat) : List (List Nat) :=
  splitFramesAux bs.length bs

/- ===== Facts about the remaining-length prefix and frame boundaries ===== -/

theorem decodeRLAux_append (bs e : List Nat) (m a k v k2 : Nat)
    (h : decodeRLAux bs m a k = some (v, k2)) :
    decodeRLAux (bs ++ e) m a k = some (v, k2) := by
  induction bs generalizing m a k with
  | nil => simp [decodeRLAux] at h
  | cons b bs ih =>
    by_cases h4 : 4 ≤ k
    · simp [decodeRLAux, h4] at h
    · by_cases hb : b < 128
      · simpa [decodeRLAux, h4, hb] using h
      · simp only [decodeRLAux, h4, hb, if_false, List.cons_append] at h ⊢
        exact ih _ _ _ h

theorem decodeRLAux_count_lt (bs : List Nat) (m a k v k2 : Nat)
    (h : decodeRLAux bs m a k = some (v, k2)) : k < k2 := by
  induction bs generalizing m a k with
  | nil => simp [decodeRLAux] at h
  | cons b bs ih =>
    by_cases h4 : 4 ≤ k
    · simp [decodeRLAux, h4] at h
    · by_cases hb : b < 128
      · simp [decodeRLAux, h4, hb] at h
        omega
      · simp only [decodeRLAux, h4, hb, if_false] at h
        have := ih _ _ _ h
        omega

theorem decodeRLAux_none_snoc (bs : List Nat) (b m a k v k2 : Nat)
    (h1 : decodeRLAux bs m a k = none)
    (h2 : decodeRLAux (bs ++ [b]) m a k = some (v, k2)) :
    k2 = k + bs.length + 1 := by
  induction bs generalizing m a k with
  | nil =>
    by_cases h4 : 4 ≤ k
    · simp [decodeRLAux, h4] at h2
    · by_cases hb : b < 128
      · rw [List.nil_append, decodeRLAux, if_neg h4, if_pos hb] at h2
        simp only [Option.some.injEq, Prod.mk.injEq] at h2
        simp only [List.length_nil]
        omega
      · simp [decodeRLAux, h4, hb] at h2
  | cons c r ih =>
    by_cases h4 : 4 ≤ k
    · simp [decodeRLAux, h4] at h2
    · by_cases hc : c < 128
      · simp [decodeRLAux, h4, hc] at h1
      · simp only [decodeRLAux, h4, hc, if_false, List.cons_append] at h1 h2
        have := ih _ _ _ h1 h2
        simp [List.length_cons]
        omega

theorem frameSize?_append (bs e : List Nat) (n : Nat) (h : frameSize? bs = some n) :
    frameSize? (bs ++ e) = some n := by
  cases bs with
  | nil => simp [frameSize?] at h
  | cons x rest =>
    simp only [frameSize?, List.cons_append] at h ⊢
    cases hd : decodeRLAux rest 1 0 0 with
    | none => rw [hd] at h; exact absurd h (by simp)
    | some p =>
      rw [hd] at h
      rw [decodeRLAux_append rest e 1 0 0 p.1 p.2 (by rw [hd])]
      exact h

theorem frameSize?_two (bs : List Nat) (n : Nat) (h : frameSize? bs = some n) : 2 ≤ n := by
  cases bs with
  | nil => simp [frameSize?] at h
  | cons x rest =>
    simp only [frameSize?] at h
    cases hd : decodeRLAux rest 1 0 0 with
    | none => rw [hd] at h; exact absurd h (by simp)
    | some p =>
      rw [hd] at h
      have hk := decodeRLAux_count_lt rest 1 0 0 p.1 p.2 (by rw [hd])
      simp only [Option.some.injEq] at h
      omega

theorem availB_some (bs : List Nat) (n : Nat) (h : frameSize? bs = some n) :
    availB bs = decide (n ≤ bs.length) := by
  unfold availB
  rw [h]

theorem availB_true_iff (bs : List Nat) :
    availB bs = true ↔ ∃ n, frameSize? bs = some n ∧ n ≤ bs.length := by
  unfold availB
  cases h : frameSize? bs with
  | none => simp
  | some n => simp

theorem availB_nil : availB [] = false := by
  rfl

theorem avail_snoc_exact (bs : List Nat) (b : Nat)
    (h1 : availB bs = false) (h2 : availB (bs ++ [b]) = true) :
    frameSize? (bs ++ [b]) = some (bs.length + 1) := by
  obtain ⟨n, hn, hle⟩ := (availB_true_iff _).mp h2
  rw [List.length_append, List.length_cons, List.length_nil] at hle
  cases hf : frameSize? bs with
  | some m =>
    have happ := frameSize?_append bs [b] m hf
    rw [happ] at hn
    have hm : m = n := by simpa using hn
    have hnotle : ¬ m ≤ bs.length := by
      intro hc
      rw [availB_some bs m hf] at h1
      simp [hc] at h1
    have hm1 : m = bs.length + 1 := by omega
    rw [happ, hm1]
  | none =>
    cases bs with
    | nil => simp [frameSize?, decodeRLAux] at hn
    | cons x rest =>
      simp only [frameSize?] at hf
      cases hd : decodeRLAux rest 1 0 0 with
      | some p => rw [hd] at hf; simp at hf
      | none =>
        simp only [frameSize?, List.cons_append] at hn ⊢
        cases hd2 : decodeRLAux (rest ++ [b]) 1 0 0 with
        | none => rw [hd2] at hn; simp at hn
        | some q =>
          rw [hd2] at hn
          have hk2 := decodeRLAux_none_snoc rest b 1 0 0 q.1 q.2 hd (by rw [hd2])
          simp only [Option.some.injEq] at hn
          simp only [List.length_cons] at hle ⊢
          simp only [Option.some.injEq]
          omega

/- ===== Facts about the accumulation loop ===== -/

theorem slurpAux_unfold (cap : Nat) (buf chunk : List Nat) (k : Nat) :
    slurpAux cap buf chunk k =
      if availB buf then .ok (buf, k)
      else
        match chunk with
        | [] => .ok (buf, k)
        | b :: rest =>
          if buf.length < cap then slurpAux cap (buf ++ [b]) rest (k + 1)
          else .error ProtocolError.Bounds := by
  rw [slurpAux.eq_def]

theorem slurpAux_shape (cap : Nat) (chunk : List Nat) :
    ∀ (buf : List Nat) (k : Nat) (buf2 : List Nat) (k2 : Nat),
      slurpAux cap buf chunk k = .ok (buf2, k2) →
      ∃ d, k2 = k + d ∧ d ≤ chunk.length ∧ buf2 = buf ++ chunk.take d := by
  induction chunk with
  | nil =>
    intro buf k buf2 k2 h
    refine ⟨0, ?_⟩
    rw [slurpAux] at h
    simp only [ite_self] at h
    simp only [Except.ok.injEq, Prod.mk.injEq] at h
    simp [h.1.symm, h.2.symm]
  | cons b rest ih =>
    intro buf k buf2 k2 h
    rw [slurpAux] at h
    by_cases ha : availB buf
    · rw [if_pos ha] at h
      simp only [Except.ok.injEq, Prod.mk.injEq] at h
      exact ⟨0, by simp [h.1.symm, h.2.symm]⟩
    · rw [if_neg ha] at h
      by_cases hc : buf.length < cap
      · rw [if_pos hc] at h
        obtain ⟨d, hd1, hd2, hd3⟩ := ih _ _ _ _ h
        refine ⟨d + 1, by omega, by simp; omega, ?_⟩
        rw [hd3]
        simp [List.append_assoc]
      · rw [if_neg hc] at h
        exact absurd h (by simp)

theorem slurpAux_full (cap : Nat) (chunk : List Nat) :
    ∀ (buf : List Nat) (k : Nat) (buf2 : List Nat) (k2 : Nat),
      slurpAux cap buf chunk k = .ok (buf2, k2) →
      availB buf2 = false →
      buf2 = buf ++ chunk ∧ k2 = k + chunk.length := by
  induction chunk with
  | nil =>
    intro buf k buf2 k2 h _
    rw [slurpAux] at h
    simp only [ite_self] at h
    simp only [Except.ok.injEq, Prod.mk.injEq] at h
    simp [h.1.symm, h.2.symm]
  | cons b rest ih =>
    intro buf k buf2 k2 h hna
    rw [slurpAux] at h
    by_cases ha : availB buf
    · rw [if_pos ha] at h
      simp only [Except.ok.injEq, Prod.mk.injEq] at h
      rw [← h.1] at hna
      rw [ha] at hna
      exact absurd hna (by simp)
    · rw [if_neg ha] at h
      by_cases hc : buf.length < cap
      · rw [if_pos hc] at h
        obtain ⟨h1, h2⟩ := ih _ _ _ _ h hna
        constructor
        · rw [h1]; simp
        · simp [h2]; omega
      · rw [if_neg hc] at h
        exact absurd h (by simp)

theorem slurpAux_exact (cap : Nat) (chunk : List Nat) :
    ∀ (buf : List Nat) (k : Nat) (buf2 : List Nat) (k2 : Nat),
      availB buf = false →
      slurpAux cap buf chunk k = .ok (buf2, k2) →
      availB buf2 = true →
      frameSize? buf2 = some buf2.length := by
  induction chunk with
  | nil =>
    intro buf k buf2 k2 hna h hav
    rw [slurpAux] at h
    simp only [ite_self] at h
    simp only [Except.ok.injEq, Prod.mk.injEq] at h
    rw [← h.1] at hav
    rw [hna] at hav
    exact absurd hav (by simp)
  | cons b rest ih =>
    intro buf k buf2 k2 hna h hav
    rw [slurpAux, if_neg (by simp [hna])] at h
    by_cases hc : buf.length < cap
    · rw [if_pos hc] at h
      by_cases hab : availB (buf ++ [b])
      · rw [slurpAux_unfold, if_pos hab] at h
        simp only [Except.ok.injEq, Prod.mk.injEq] at h
        rw [← h.1]
        have := avail_snoc_exact buf b hna hab
        rw [this]
        simp
      · exact ih _ _ _ _ (by simpa using hab) h hav
    · rw [if_neg hc] at h
      exact absurd h (by simp)

theorem slurp_ok (r : PacketReader) (cap : Nat) (chunk : List Nat)
    (r1 : PacketReader) (count : Nat)
    (h : r.slurp cap chunk = .ok (r1, count)) :
    slurpAux cap r.buffer chunk 0 = .ok (r1.buffer, count) := by
  unfold PacketReader.slurp at h
  cases hs : slurpAux cap r.buffer chunk 0 with
  | error e => rw [hs] at h; exact absurd h (by simp [Except.map])
  | ok p =>
    rw [hs] at h
    simp only [Except.map, Except.ok.injEq, Prod.mk.injEq] at h
    have hb : p.1 = r1.buffer := by rw [← h.1]
    rw [← hb, ← h.2]

theorem slurp_shape (r : PacketReader) (cap : Nat) (chunk : List Nat)
    (r1 : PacketReader) (count : Nat)
    (h : r.slurp cap chunk = .ok (r1, count)) :
    r1.buffer = r.buffer ++ chunk.take count ∧ count ≤ chunk.length := by
  obtain ⟨d, hd1, hd2, hd3⟩ := slurpAux_shape cap chunk r.buffer 0 r1.buffer count (slurp_ok _ _ _ _ _ h)
  have : d = count := by omega
  subst this
  exact ⟨hd3, hd2⟩

theorem slurp_full (r : PacketReader) (cap : Nat) (chunk : List Nat)
    (r1 : PacketReader) (count : Nat)
    (h : r.slurp cap chunk = .ok (r1, count))
    (hna : availB r1.buffer = false) :
    r1.buffer = r.buffer ++ chunk ∧ count = chunk.length := by
  obtain ⟨h1, h2⟩ := slurpAux_full cap chunk r.buffer 0 r1.buffer count (slurp_ok _ _ _ _ _ h) hna
  exact ⟨h1, by omega⟩

theorem slurp_exact (r : PacketReader) (cap : Nat) (chunk : List Nat)
    (r1 : PacketReader) (count : Nat)
    (hna : availB r.buffer = false)
    (h : r.slurp cap chunk = .ok (r1, count))
    (hav : availB r1.buffer = true) :
    frameSize? r1.buffer = some r1.buffer.length :=
  slurpAux_exact cap chunk r.buffer 0 r1.buffer count hna (slurp_ok _ _ _ _ _ h) hav

/- ===== Facts about pop, parse and the frame decomposition ===== -/

theorem pop_of_avail (r : PacketReader) (n : Nat)
    (h1 : frameSize? r.buffer = some n) (h2 : n ≤ r.buffer.length) :
    r.pop_packet = .ok ⟨r.buffer.drop n⟩ := by
  unfold PacketReader.pop_packet
  rw [h1]
  simp [h2]

theorem parse_message_exact (r : PacketReader)
    (h : frameSize? r.buffer = some r.buffer.length) :
    parse_message r = parse_frame r.buffer := by
  unfold parse_message
  rw [h]
  simp

theorem splitFramesAux_nil (fuel : Nat) : splitFramesAux fuel [] = [] := by
  cases fuel with
  | zero => rfl
  | succ f => simp [splitFramesAux, frameSize?]

theorem splitFramesAux_not_avail (fuel : Nat) (bs : List Nat) (h : availB bs = false) :
    splitFramesAux fuel bs = [] := by
  cases fuel with
  | zero => rfl
  | succ f =>
    rw [splitFramesAux]
    cases hf : frameSize? bs with
    | none => simp
    | some n =>
      rw [availB_some bs n hf] at h
      simp only [decide_eq_false_iff_not] at h
      simp [h]

theorem splitFramesAux_fuel (f1 : Nat) :
    ∀ (f2 : Nat) (bs : List Nat), bs.length ≤ f1 → bs.length ≤ f2 →
      splitFramesAux f1 bs = splitFramesAux f2 bs := by
  induction f1 with
  | zero =>
    intro f2 bs h1 _
    have : bs = [] := List.length_eq_zero.mp (by omega)
    subst this
    rw [splitFramesAux_nil, splitFramesAux_nil]
  | succ f ih =>
    intro f2 bs h1 h2
    cases f2 with
    | zero =>
      have : bs = [] := List.length_eq_zero.mp (by omega)
      subst this
      rw [splitFramesAux_nil, splitFramesAux_nil]
    | succ f2 =>
      rw [splitFramesAux, splitFramesAux]
      cases hf : frameSize? bs with
      | none => simp
      | some n =>
        by_cases hcond : n ≤ bs.length ∧ 1 ≤ n
        · simp only [hcond, if_true, if_pos hcond]
          have hlen : (bs.drop n).length ≤ f := by
            rw [List.length_drop]
            omega
          have hlen2 : (bs.drop n).length ≤ f2 := by
            rw [List.length_drop]
            omega
          rw [ih f2 (bs.drop n) hlen hlen2]
        · simp [hcond]

theorem splitFrames_not_avail (bs : List Nat) (h : availB bs = false) :
    splitFrames bs = [] :=
  splitFramesAux_not_avail bs.length bs h

theorem splitFrames_cons (bs : List Nat) (n : Nat)
    (h1 : frameSize? bs = some n) (h2 : n ≤ bs.length) :
    splitFrames bs = bs.take n :: splitFrames (bs.drop n) := by
  have hn2 : 2 ≤ n := frameSize?_two bs n h1
  unfold splitFrames
  cases hlen : bs.length with
  | zero => omega
  | succ m =>
    have hcond : n ≤ bs.length ∧ 1 ≤ n := ⟨h2, by omega⟩
    rw [splitFramesAux, h1]
    show (if n ≤ bs.length ∧ 1 ≤ n then bs.take n :: splitFramesAux m (bs.drop n) else []) = _
    rw [if_pos hcond]
    congr 1
    apply splitFramesAux_fuel
    · rw [List.length_drop]; omega
    · exact le_refl _

/- ===== Facts about dispatch and reconnection ===== -/

theorem handle_packet_preserves (E : Type) (c : Client) (p : ReceivedPacket) :
    (Client.handle_packet E c p).1.cap = c.cap ∧
    (Client.handle_packet E c p).1.state.client_id = c.state.client_id ∧
    (Client.handle_packet E c p).1.state.keep_alive_interval = c.state.keep_alive_interval ∧
    (Client.handle_packet E c p).1.packet_reader = c.packet_reader := by
  unfold Client.handle_packet
  by_cases hc : c.state.connected = false
  · rw [if_pos hc]
    cases p with
    | ConnAck sp rc =>
      by_cases hrc : rc ≠ 0
      · simp [hrc]
      · by_cases hsp : sp
        · simp [hrc, hsp]
        · simp [hrc, hsp, SessionState.reset]
    | Publish info => simp
    | SubAck pid rc => simp
  · rw [if_neg hc]
    cases p with
    | ConnAck sp rc => simp
    | Publish info =>
      cases hp : c.packet_reader.payload with
      | error pe => simp
      | ok pl => simp
    | SubAck pid rc =>
      by_cases hpid : pid ≠ c.state.get_packet_identifier
      · simp [hpid]
      · by_cases hrc : rc ≠ 0
        · simp [hpid, hrc]
        · simp [hpid, hrc, SessionState.increment_packet_identifier]

theorem handle_packet_no_disconnect (E : Type) (c : Client) (p : ReceivedPacket) :
    (Client.handle_packet E c p).2.2 ≠ some Error.Disconnected := by
  unfold Client.handle_packet
  by_cases hc : c.state.connected = false
  · rw [if_pos hc]
    cases p with
    | ConnAck sp rc =>
      by_cases hrc : rc ≠ 0
      · simp [hrc]
      · by_cases hsp : sp
        · simp [hrc, hsp]
        · simp [hrc, hsp]
    | Publish info => simp
    | SubAck pid rc => simp
  · rw [if_neg hc]
    cases p with
    | ConnAck sp rc => simp
    | Publish info =>
      cases hp : c.packet_reader.payload with
      | error pe => simp
      | ok pl => simp
    | SubAck pid rc =>
      by_cases hpid : pid ≠ c.state.get_packet_identifier
      · simp [hpid]
      · by_cases hrc : rc ≠ 0
        · simp [hpid, hrc]
        · simp [hpid, hrc]

theorem reset_no_disconnect {E : Type} (t : Transport E) (c : Client) :
    (c.reset t).2.2 ≠ some Error.Disconnected := by
  unfold Client.reset connect_socket
  cases t.close_result with
  | error e => simp
  | ok u =>
    cases t.open_result with
    | error e => simp
    | ok u2 =>
      cases t.connect_result with
      | error e => simp
      | ok u3 =>
        simp only
        cases hm : connect_message c.cap
            (SessionState.reset c.state).client_id
            (SessionState.reset c.state).keep_alive_interval with
        | error pe => simp
        | ok msg =>
          simp only [writeStep]
          by_cases hw : t.write_result msg ≠ msg.length
          · simp [hw]
          · simp [hw]

theorem reset_no_read {E : Type} (t : Transport E) (c : Client) (bs : List Nat) :
    Action.readS bs ∉ (c.reset t).2.1 := by
  unfold Client.reset connect_socket
  cases t.close_result with
  | error e => simp
  | ok u =>
    cases t.open_result with
    | error e => simp
    | ok u2 =>
      cases t.connect_result with
      | error e => simp
      | ok u3 =>
        simp only
        cases hm : connect_message c.cap
            (SessionState.reset c.state).client_id
            (SessionState.reset c.state).keep_alive_interval with
        | error pe => simp
        | ok msg => simp

theorem reset_cases {E : Type} (t : Transport E) (c : Client) (m : List Nat)
    (hfit : connect_message c.cap c.state.client_id c.state.keep_alive_interval = .ok m) :
    ((c.reset t).2.2 = none ∧ Action.closeSock ∈ (c.reset t).2.1 ∧
      (c.reset t).1.state.connected = false ∧ (c.reset t).1.packet_reader.buffer = []) ∨
    (c.reset t).2.2 = some Error.WriteFail ∨
    (∃ e, (c.reset t).2.2 = some (Error.Network e)) := by
  unfold Client.reset connect_socket
  cases t.close_result with
  | error e => right; right; exact ⟨e, by simp⟩
  | ok u =>
    cases t.open_result with
    | error e => right; right; exact ⟨e, by simp⟩
    | ok u2 =>
      cases t.connect_result with
      | error e => right; right; exact ⟨e, by simp⟩
      | ok u3 =>
        simp only
        have hfit2 : connect_message c.cap (SessionState.reset c.state).client_id
            (SessionState.reset c.state).keep_alive_interval = .ok m := by
          simpa [SessionState.reset] using hfit
        rw [hfit2]
        simp only [writeStep]
        by_cases hw : t.write_result m ≠ m.length
        · right; left; simp [hw]
        · left
          refine ⟨by simp [hw], by simp, by simp [SessionState.reset], by simp [PacketReader.reset]⟩

/- ===== Trace facts of the inbound processing loop ===== -/

theorem pollLoop_no_read {E : Type} (t : Transport E) (fuel : Nat) :
    ∀ (c : Client) (rem : List Nat) (bs : List Nat),
      Action.readS bs ∉ (pollLoop t fuel c rem).2.1 := by
  induction fuel with
  | zero =>
    intro c rem bs
    cases rem with
    | nil => simp [pollLoop]
    | cons b rest => simp [pollLoop]
  | succ fuel ih =>
    intro c rem bs
    cases rem with
    | nil => simp [pollLoop]
    | cons b rest =>
      rw [pollLoop]
      cases hs : c.packet_reader.slurp c.cap (b :: rest) with
      | error e =>
        rcases hr : c.reset t with ⟨c1, tr, e1⟩
        simp only
        have := reset_no_read t c bs
        rw [hr] at this
        simpa using this
      | ok p =>
        rcases p with ⟨r1, count⟩
        simp only
        by_cases hav : ({ c with packet_reader := r1 } : Client).packet_reader.packet_available
        · rw [if_pos hav]
          cases hp : parse_message ({ c with packet_reader := r1 } : Client).packet_reader with
          | error pe => simp
          | ok pkt =>
            cases hpop : ({ c with packet_reader := r1 } : Client).packet_reader.pop_packet with
            | error pe => simp
            | ok r2 =>
              rcases hh : Client.handle_packet E
                  ({ c with packet_reader := r2 } : Client) pkt with ⟨c3, dl, he⟩
              cases he with
              | some e => simp [hh]
              | none =>
                simp only [hh, List.mem_cons, not_or]
                exact ⟨by simp, ih c3 ((b :: rest).drop count) bs⟩
        · rw [if_neg hav]
          exact ih _ _ _

theorem pollLoop_err {E : Type} (t : Transport E) (fuel : Nat) :
    ∀ (c : Client) (rem : List Nat) (m : List Nat),
      connect_message c.cap c.state.client_id c.state.keep_alive_interval = .ok m →
      (((pollLoop t fuel c rem).2.2.2 = some Error.Disconnected →
          Action.closeSock ∈ (pollLoop t fuel c rem).2.1 ∧
          (pollLoop t fuel c rem).1.state.connected = false ∧
          (pollLoop t fuel c rem).1.packet_reader.buffer = []) ∧
       (∀ e, (pollLoop t fuel c rem).2.2.2 = some e →
          (e = Error.Invalid ∨ e = Error.Failed ∨ ∃ pe, e = Error.Protocol pe) →
          Action.closeSock ∉ (pollLoop t fuel c rem).2.1)) := by
  induction fuel with
  | zero =>
    intro c rem m hfit
    cases rem with
    | nil =>
      refine ⟨fun h => ?_, fun e he hset => ?_⟩
      · simp [pollLoop] at h
      · simp [pollLoop] at he
    | cons b rest =>
      refine ⟨fun h => ?_, fun e he hset => ?_⟩
      · simp [pollLoop] at h
      · simp [pollLoop]
  | succ fuel ih =>
    intro c rem m hfit
    cases rem with
    | nil =>
      refine ⟨fun h => ?_, fun e he hset => ?_⟩
      · simp [pollLoop] at h
      · simp [pollLoop] at he
    | cons b rest =>
      rw [pollLoop]
      cases hs : c.packet_reader.slurp c.cap (b :: rest) with
      | error e0 =>
        rcases hr : c.reset t with ⟨c1, tr, e1⟩
        have hcases := reset_cases t c m hfit
        have hnodisc := reset_no_disconnect t c
        rw [hr] at hcases hnodisc
        simp only at hcases hnodisc ⊢
        cases e1 with
        | none =>
          refine ⟨fun h => ?_, fun e he hset => ?_⟩
          · rcases hcases with ⟨_, hmem, hconn, hbuf⟩ | hwf | ⟨ne, hne⟩
            · exact ⟨hmem, hconn, hbuf⟩
            · simp at hwf
            · simp at hne
          · simp only [Option.getD] at he
            rcases hset with h1 | h1 | ⟨pe, h1⟩ <;> (rw [h1] at he; simp at he)
        | some e0b =>
          refine ⟨fun h => ?_, fun e he hset => ?_⟩
          · simp only [Option.getD] at h
            simp only [Option.some.injEq] at h
            exact absurd (by rw [h]) hnodisc
          · simp only [Option.getD, Option.some.injEq] at he
            subst he
            rcases hcases with ⟨hnone, _, _, _⟩ | hwf | ⟨ne, hne⟩
            · simp at hnone
            · simp only [Option.some.injEq] at hwf
              rw [hwf] at hset
              rcases hset with h1 | h1 | ⟨pe, h1⟩ <;> simp at h1
            · simp only [Option.some.injEq] at hne
              rw [hne] at hset
              rcases hset with h1 | h1 | ⟨pe, h1⟩ <;> simp at h1
      | ok p =>
        rcases p with ⟨r1, count⟩
        simp only
        by_cases hav : ({ c with packet_reader := r1 } : Client).packet_reader.packet_available
        · rw [if_pos hav]
          cases hp : parse_message ({ c with packet_reader := r1 } : Client).packet_reader with
          | error pe =>
            refine ⟨fun h => ?_, fun e he hset => ?_⟩
            · simp at h
            · simp
          | ok pkt =>
            cases hpop : ({ c with packet_reader := r1 } : Client).packet_reader.pop_packet with
            | error pe =>
              refine ⟨fun h => ?_, fun e he hset => ?_⟩
              · simp at h
              · simp
            | ok r2 =>
              rcases hh : Client.handle_packet E
                  ({ c with packet_reader := r2 } : Client) pkt with ⟨c3, dl, he3⟩
              have hpres := handle_packet_preserves E ({ c with packet_reader := r2 } : Client) pkt
              rw [hh] at hpres
              simp only at hpres
              cases he3 with
              | some e0 =>
                have hnd := handle_packet_no_disconnect E ({ c with packet_reader := r2 } : Client) pkt
                rw [hh] at hnd
                simp only at hnd
                refine ⟨fun h => ?_, fun e he hset => ?_⟩
                · simp only [hh] at h
                  exact absurd h hnd
                · simp only [hh]
                  simp
              | none =>
                have hfit3 : connect_message c3.cap c3.state.client_id
                    c3.state.keep_alive_interval = .ok m := by
                  rw [hpres.1, hpres.2.1, hpres.2.2.1]
                  exact hfit
                have := ih c3 ((b :: rest).drop count) m hfit3
                refine ⟨fun h => ?_, fun e he hset => ?_⟩
                · simp only [hh] at h ⊢
                  obtain ⟨hmem, hconn, hbuf⟩ := this.1 h
                  exact ⟨List.mem_cons_of_mem _ hmem, hconn, hbuf⟩
                · simp only [hh] at he ⊢
                  have hnot := this.2 e he hset
                  simp only [List.mem_cons, not_or]
                  exact ⟨by simp, hnot⟩
        · rw [if_neg hav]
          exact ih _ _ m hfit

theorem handles_cons_handle (p : ReceivedPacket) (tr : List Action) :
    handles (Action.handleS p :: tr) = p :: handles tr := by
  simp [handles]

theorem pollLoop_drains {E : Type} (t : Transport E) (fuel : Nat) :
    ∀ (c : Client) (rem : List Nat),
      availB c.packet_reader.buffer = false →
      (pollLoop t fuel c rem).2.2.2 = none →
      (splitFrames (c.packet_reader.buffer ++ rem)).map parse_frame
        = (handles (pollLoop t fuel c rem).2.1).map Except.ok := by
  induction fuel with
  | zero =>
    intro c rem hna hok
    cases rem with
    | nil => simp [pollLoop, handles, splitFrames_not_avail _ hna]
    | cons b rest => simp [pollLoop] at hok
  | succ fuel ih =>
    intro c rem hna hok
    cases rem with
    | nil => simp [pollLoop, handles, splitFrames_not_avail _ hna]
    | cons b rest =>
      rw [pollLoop] at hok ⊢
      cases hs : c.packet_reader.slurp c.cap (b :: rest) with
      | error e0 =>
        rw [hs] at hok
        rcases hr : c.reset t with ⟨c1, tr, e1⟩
        rw [hr] at hok
        simp at hok
      | ok p =>
        rcases p with ⟨r1, count⟩
        rw [hs] at hok
        simp only at hok ⊢
        have hshape := slurp_shape c.packet_reader c.cap (b :: rest) r1 count hs
        have hsplit : c.packet_reader.buffer ++ (b :: rest)
            = r1.buffer ++ (b :: rest).drop count := by
          rw [hshape.1, List.append_assoc, List.take_append_drop]
        by_cases hav : ({ c with packet_reader := r1 } : Client).packet_reader.packet_available
        · have hav2 : availB r1.buffer = true := by
            simpa [PacketReader.packet_available] using hav
          have hexact : frameSize? r1.buffer = some r1.buffer.length :=
            slurp_exact c.packet_reader c.cap (b :: rest) r1 count hna hs hav2
          rw [if_pos hav] at hok ⊢
          cases hp : parse_message ({ c with packet_reader := r1 } : Client).packet_reader with
          | error pe => rw [hp] at hok; simp at hok
          | ok pkt =>
            rw [hp] at hok
            have hpop2 : ({ c with packet_reader := r1 } : Client).packet_reader.pop_packet
                = .ok ⟨r1.buffer.drop r1.buffer.length⟩ :=
              pop_of_avail _ _ hexact (le_refl _)
            rw [List.drop_length] at hpop2
            rw [hpop2] at hok ⊢
            simp only at hok ⊢
            rcases hh : Client.handle_packet E
                ({ c with packet_reader := (⟨[]⟩ : PacketReader) } : Client) pkt with ⟨c3, dl, he3⟩
            have hpres := handle_packet_preserves E
                ({ c with packet_reader := (⟨[]⟩ : PacketReader) } : Client) pkt
            rw [hh] at hpres
            simp only at hpres
            cases he3 with
            | some e1 => rw [hh] at hok; simp at hok
            | none =>
              rw [hh] at hok
              replace hok : (pollLoop t fuel c3 ((b :: rest).drop count)).2.2.2 = none := hok
              show List.map parse_frame (splitFrames (c.packet_reader.buffer ++ b :: rest))
                  = List.map Except.ok (handles (Action.handleS pkt ::
                      (pollLoop t fuel c3 ((b :: rest).drop count)).2.1))
              have hna3 : availB c3.packet_reader.buffer = false := by
                rw [hpres.2.2.2]
                exact availB_nil
              have hih := ih c3 ((b :: rest).drop count) hna3 hok
              have hbuf3 : c3.packet_reader.buffer = [] := by
                rw [hpres.2.2.2]
              rw [hbuf3, List.nil_append] at hih
              rw [hsplit]
              have hfs : frameSize? (r1.buffer ++ (b :: rest).drop count)
                  = some r1.buffer.length :=
                frameSize?_append _ _ _ hexact
              rw [splitFrames_cons _ _ hfs (by simp)]
              rw [List.take_left, List.drop_left]
              rw [handles_cons_handle]
              simp only [List.map_cons]
              have hpm : parse_message ({ c with packet_reader := r1 } : Client).packet_reader
                  = parse_frame r1.buffer := parse_message_exact _ hexact
              rw [hpm] at hp
              rw [hp, hih]
        · rw [if_neg hav] at hok ⊢
          have hav2 : availB r1.buffer = false := by
            simpa [PacketReader.packet_available] using hav
          have hih := ih ({ c with packet_reader := r1 } : Client) ((b :: rest).drop count) hav2 hok
          simp only at hih
          rw [hsplit]
          exact hih

theorem handles_cons_read (bs : List Nat) (tr : List Action) :
    handles (Action.readS bs :: tr) = handles tr := by
  simp [handles]

/- ===== The claims ===== -/

/-- C1 (corrected): during poll's inbound processing loop, only a failed append
to the Packet Reader triggers an immediate reconnection — when that
reconnection succeeds, poll returns the Disconnected error with the session
state and the packet reader freshly reset; a failed decode, a failed pop and a
failed dispatch surface their specific error (Protocol, Invalid or Failed) to
the caller without any reconnection. -/
theorem claim_C1 {E : Type} (t : Transport E) (c : Client) (m : List Nat)
    (hconn : t.is_connected = Except.ok true)
    (hfit : connect_message c.cap c.state.client_id c.state.keep_alive_interval
      = Except.ok m) :
    ((Client.poll t c).2.2.2 = some Error.Disconnected →
        Action.closeSock ∈ (Client.poll t c).2.1 ∧
        (Client.poll t c).1.state.connected = false ∧
        (Client.poll t c).1.packet_reader.buffer = []) ∧
    (∀ e, (Client.poll t c).2.2.2 = some e →
        (e = Error.Invalid ∨ e = Error.Failed ∨ ∃ pe, e = Error.Protocol pe) →
        Action.closeSock ∉ (Client.poll t c).2.1) := by
  unfold Client.poll
  rw [hconn]
  simp only
  rcases hpl : pollLoop t
      (2 * (t.read_result.take 1024).length + c.packet_reader.buffer.length + 1)
      c (t.read_result.take 1024) with ⟨c1, tr, dl, e⟩
  have hlem := pollLoop_err t
      (2 * (t.read_result.take 1024).length + c.packet_reader.buffer.length + 1)
      c (t.read_result.take 1024) m hfit
  rw [hpl] at hlem
  simp only at hlem ⊢
  refine ⟨fun h => ?_, fun e0 he0 hset => ?_⟩
  · obtain ⟨hmem, hconn2, hbuf⟩ := hlem.1 h
    exact ⟨List.mem_cons_of_mem _ hmem, hconn2, hbuf⟩
  · have hnot := hlem.2 e0 he0 hset
    simp only [List.mem_cons, not_or]
    exact ⟨by simp, hnot⟩

/-- C2 (confirmed): in every successful poll with the transport connected and
the packet reader initially empty, the packets dispatched are exactly the
decoded complete frames of the bytes obtained by the single transport read, in
order — a read containing several complete frames has all of them dispatched
within that one call. -/
theorem claim_C2 {E : Type} (t : Transport E) (c : Client)
    (hconn : t.is_connected = Except.ok true)
    (hempty : c.packet_reader.buffer = [])
    (hok : (Client.poll t c).2.2.2 = none) :
    (splitFrames (t.read_result.take 1024)).map parse_frame
      = (handles (Client.poll t c).2.1).map Except.ok := by
  unfold Client.poll at hok ⊢
  rw [hconn] at hok ⊢
  simp only at hok ⊢
  rcases hpl : pollLoop t
      (2 * (t.read_result.take 1024).length + c.packet_reader.buffer.length + 1)
      c (t.read_result.take 1024) with ⟨c1, tr, dl, e⟩
  rw [hpl] at hok
  simp only at hok
  have hna : availB c.packet_reader.buffer = false := by
    rw [hempty]
    exact availB_nil
  have hd := pollLoop_drains t
      (2 * (t.read_result.take 1024).length + c.packet_reader.buffer.length + 1)
      c (t.read_result.take 1024) hna (by rw [hpl]; exact hok)
  rw [hpl] at hd
  rw [hempty, List.nil_append] at hd
  simp only at hd ⊢
  rw [handles_cons_read]
  exact hd

/-- C3 (confirmed): the session's connected flag moves from false to true
exactly on dispatch of a connection-acknowledgment with reason code zero and
session-present false, and in that case the session state is freshly reset
before the flag is set; no other dispatched packet sets the flag. -/
theorem claim_C3 (E : Type) (c : Client) (p : ReceivedPacket)
    (h : c.state.connected = false) :
    ((Client.handle_packet E c p).1.state.connected = true ↔
        p = ReceivedPacket.ConnAck false 0) ∧
    (p = ReceivedPacket.ConnAck false 0 →
        Client.handle_packet E c p =
          ({ c with state := { c.state.reset with connected := true } }, [], none)) := by
  cases p with
  | ConnAck sp rc =>
    cases sp with
    | false =>
      by_cases hrc : rc = 0
      · subst hrc
        simp [Client.handle_packet, h, SessionState.reset]
      · simp [Client.handle_packet, h, hrc]
    | true =>
      by_cases hrc : rc = 0
      · subst hrc
        simp [Client.handle_packet, h]
      · simp [Client.handle_packet, h, hrc]
  | Publish info => simp [Client.handle_packet, h]
  | SubAck pid rc => simp [Client.handle_packet, h]

/-- C4 (confirmed): a connection-acknowledgment dispatched while not connected
whose session-present flag is set yields the Failed error whatever its reason
code, and leaves the client unchanged. -/
theorem claim_C4 (E : Type) (c : Client) (rc : Nat) (h : c.state.connected = false) :
    Client.handle_packet E c (ReceivedPacket.ConnAck true rc) = (c, [], some Error.Failed) := by
  by_cases hrc : rc = 0 <;> simp [Client.handle_packet, h, hrc]

/-- C5 (confirmed): a subscription-acknowledgment dispatched while connected is
Invalid on an identifier mismatch with the counter unchanged, Failed on a
matching identifier with non-zero reason code, and advances the identifier
counter on a matching identifier with reason code zero. -/
theorem claim_C5 (E : Type) (c : Client) (pid rc : Nat)
    (h : c.state.connected = true) :
    (pid ≠ c.state.packet_identifier →
        Client.handle_packet E c (ReceivedPacket.SubAck pid rc)
          = (c, [], some Error.Invalid)) ∧
    (pid = c.state.packet_identifier → rc ≠ 0 →
        Client.handle_packet E c (ReceivedPacket.SubAck pid rc)
          = (c, [], some Error.Failed)) ∧
    (pid = c.state.packet_identifier → rc = 0 →
        Client.handle_packet E c (ReceivedPacket.SubAck pid rc)
          = ({ c with state := c.state.increment_packet_identifier }, [], none)) := by
  refine ⟨fun hne => ?_, fun heq hrc => ?_, fun heq hrc => ?_⟩
  · simp [Client.handle_packet, h, SessionState.get_packet_identifier, hne]
  · simp [Client.handle_packet, h, SessionState.get_packet_identifier, heq, hrc]
  · simp [Client.handle_packet, h, SessionState.get_packet_identifier, heq, hrc]

/-- C6 (confirmed): when the transport reports the socket not connected,
publish succeeds while encoding nothing and writing nothing. -/
theorem claim_C6 {E : Type} (t : Transport E) (c : Client) (topic payload : List Nat)
    (h : t.is_connected = Except.ok false) :
    (Client.publish t c topic payload).2.2 = none ∧
    (Client.publish t c topic payload).2.1 = [] ∧
    (Client.publish t c topic payload).1.transmit_buffer = c.transmit_buffer := by
  simp [Client.publish, h]

/-- C7 (confirmed): when the transport reports the socket connected and the
message encodes, publish encodes into the transmit buffer and writes the
encoded frame unconditionally — for every client, whatever the session's
protocol-level connected flag. -/
theorem claim_C7 {E : Type} (t : Transport E) (c : Client) (topic payload m : List Nat)
    (hconn : t.is_connected = Except.ok true)
    (henc : publish_message c.cap topic payload = Except.ok m) :
    Client.publish t c topic payload =
      ({ c with transmit_buffer := m ++ c.transmit_buffer.drop m.length },
        [Action.writeS m], writeStep t m) := by
  simp [Client.publish, hconn, henc]

/-- C8 (confirmed): when poll finds the transport disconnected, it performs
exactly one reconnection sequence — close, open, connect, session and reader
reset, then one write of the CONNECT frame — and, when that sequence succeeds,
returns success having read nothing and dispatched nothing. -/
theorem claim_C8 {E : Type} (t : Transport E) (c : Client) (m : List Nat)
    (h1 : t.is_connected = Except.ok false)
    (h2 : t.close_result = Except.ok ())
    (h3 : t.open_result = Except.ok ())
    (h4 : t.connect_result = Except.ok ())
    (h5 : connect_message c.cap c.state.client_id c.state.keep_alive_interval
      = Except.ok m)
    (h6 : t.write_result m = m.length) :
    Client.poll t c =
      ({ c with state := c.state.reset, packet_reader := ⟨[]⟩,
                transmit_buffer := m ++ c.transmit_buffer.drop m.length },
        [Action.closeSock, Action.openSock, Action.connectSock, Action.writeS m],
        [], none) := by
  unfold Client.poll Client.reset connect_socket
  rw [h1, h2, h3, h4]
  simp only
  have h5b : connect_message c.cap (SessionState.reset c.state).client_id
      (SessionState.reset c.state).keep_alive_interval = Except.ok m := by
    simpa [SessionState.reset] using h5
  rw [h5b]
  simp [writeStep, h6, PacketReader.reset]

/-- C9 (confirmed): when the transport reports the socket not connected,
publish leaves the whole client state — session state, packet reader and
transmit buffer — unchanged. -/
theorem claim_C9 {E : Type} (t : Transport E) (c : Client) (topic payload : List Nat)
    (h : t.is_connected = Except.ok false) :
    (Client.publish t c topic payload).1 = c := by
  simp [Client.publish, h]

/-- C10 (confirmed): every transport read performed by poll goes through the
fixed 1024-byte stack buffer, so at most 1024 bytes are read and handed to the
packet reader per call, for every configured buffer capacity. -/
theorem claim_C10 {E : Type} (t : Transport E) (c : Client) (bs : List Nat)
    (hconn : t.is_connected = Except.ok true)
    (hmem : Action.readS bs ∈ (Client.poll t c).2.1) :
    bs.length ≤ 1024 := by
  unfold Client.poll at hmem
  rw [hconn] at hmem
  simp only at hmem
  rcases hpl : pollLoop t
      (2 * (t.read_result.take 1024).length + c.packet_reader.buffer.length + 1)
      c (t.read_result.take 1024) with ⟨c1, tr, dl, e⟩
  rw [hpl] at hmem
  simp only [List.mem_cons] at hmem
  rcases hmem with heq | hmem2
  · have hbs : bs = t.read_result.take 1024 := by
      simpa using heq
    rw [hbs]
    exact List.length_take_le _ _
  · have hnr := pollLoop_no_read t
        (2 * (t.read_result.take 1024).length + c.packet_reader.buffer.length + 1)
        c (t.read_result.take 1024) bs
    rw [hpl] at hnr
    exact absurd hmem2 hnr

/- ===== Concrete instantiations ===== -/

/-- Sample transport: connected, all socket operations succeed, writes complete
in full, and the single read yields a connection-acknowledgment frame followed
by a subscription-acknowledgment frame for identifier 1. -/
def sampleTransport : Transport Unit :=
  { is_connected := Except.ok true,
    close_result := Except.ok (),
    open_result := Except.ok (),
    connect_result := Except.ok (),
    write_result := fun bs => bs.length,
    read_result := [32, 2, 0, 0, 144, 3, 0, 1, 0] }

/-- Sample client: capacity 64, client identifier "a", not protocol-connected,
empty packet reader. -/
def sampleClient : Client :=
  { cap := 64,
    state := { client_id := [97], keep_alive_interval := 10, connected := false,
               packet_identifier := 1 },
    packet_reader := ⟨[]⟩,
    transmit_buffer := [] }

/-- Transport whose read yields a frame of an unsupported packet kind (a
ping-response, type 13). -/
def unsupportedTransport : Transport Unit :=
  { sampleTransport with read_result := [208, 0] }

/-- Transport whose read delivers 21 bytes of a frame whose remaining-length
prefix never completes, overflowing a capacity-20 reader. -/
def overflowTransport : Transport Unit :=
  { sampleTransport with read_result := 16 :: List.replicate 20 200 }

/-- Client with a capacity of 20 bytes. -/
def smallClient : Client :=
  { sampleClient with cap := 20 }

/-- The CONNECT frame that the sample client encodes on reconnection. -/
def connectFrame : List Nat :=
  [16, 14, 0, 4, 77, 81, 84, 84, 5, 2, 0, 10, 0, 0, 1, 97]

/-- The publish frame for topic "t" and payload [1, 2] as encoded here. -/
def pubFrame : List Nat :=
  [48, 5, 0, 1, 116, 1, 2]

/-- Counterexample to C1 as claimed: a failed decode (an unsupported packet
kind) makes poll return that Protocol error directly — not the Disconnected
error — and the trace holds no reconnection action (no close of the socket),
contradicting the claim that every protocol error in the loop triggers an
immediate reconnection and surfaces as a disconnection error. -/
theorem claim_C1_counterexample :
    (Client.poll unsupportedTransport sampleClient).2.2.2
        = some (Error.Protocol ProtocolError.UnsupportedPacket) ∧
    (Client.poll unsupportedTransport sampleClient).2.2.2 ≠ some Error.Disconnected ∧
    Action.closeSock ∉ (Client.poll unsupportedTransport sampleClient).2.1 := by
  refine ⟨by decide, by decide, by decide⟩

/-- Witness for C1: a concrete run whose append overflows the reader, showing
the reconnection and the Disconnected result of the amended claim. -/
theorem claim_C1_witness :
    Action.closeSock ∈ (Client.poll overflowTransport smallClient).2.1 ∧
    (Client.poll overflowTransport smallClient).1.state.connected = false ∧
    (Client.poll overflowTransport smallClient).1.packet_reader.buffer = [] :=
  (claim_C1 overflowTransport smallClient connectFrame rfl rfl).1 (by decide)

/-- Witness for C2: a concrete successful poll whose single read carries two
complete frames, both dispatched in that call. -/
theorem claim_C2_witness :
    (splitFrames (sampleTransport.read_result.take 1024)).map parse_frame
      = (handles (Client.poll sampleTransport sampleClient).2.1).map Except.ok :=
  claim_C2 sampleTransport sampleClient rfl rfl (by decide)

/-- Witness for C3: the successful handshake acknowledgment at a concrete
client. -/
theorem claim_C3_witness :
    ((Client.handle_packet Unit sampleClient (ReceivedPacket.ConnAck false 0)).1.state.connected
        = true ↔ ReceivedPacket.ConnAck false 0 = ReceivedPacket.ConnAck false 0) ∧
    (ReceivedPacket.ConnAck false 0 = ReceivedPacket.ConnAck false 0 →
      Client.handle_packet Unit sampleClient (ReceivedPacket.ConnAck false 0) =
        ({ sampleClient with
            state := { sampleClient.state.reset with connected := true } }, [], none)) :=
  claim_C3 Unit sampleClient (ReceivedPacket.ConnAck false 0) (by decide)

/-- Witness for C4: a resumed-session acknowledgment with reason code zero at a
concrete client. -/
theorem claim_C4_witness :
    Client.handle_packet Unit sampleClient (ReceivedPacket.ConnAck true 0)
      = (sampleClient, [], some Error.Failed) :=
  claim_C4 Unit sampleClient 0 (by decide)

/-- Connected variant of the sample client. -/
def connectedClient : Client :=
  { sampleClient with state := { sampleClient.state with connected := true } }

/-- Witness for C5: the three subscription-acknowledgment outcomes at a
concrete connected client with outstanding identifier 1. -/
theorem claim_C5_witness :
    ((2 : Nat) ≠ connectedClient.state.packet_identifier →
        Client.handle_packet Unit connectedClient (ReceivedPacket.SubAck 2 0)
          = (connectedClient, [], some Error.Invalid)) ∧
    ((2 : Nat) = connectedClient.state.packet_identifier → (0 : Nat) ≠ 0 →
        Client.handle_packet Unit connectedClient (ReceivedPacket.SubAck 2 0)
          = (connectedClient, [], some Error.Failed)) ∧
    ((2 : Nat) = connectedClient.state.packet_identifier → (0 : Nat) = 0 →
        Client.handle_packet Unit connectedClient (ReceivedPacket.SubAck 2 0)
          = ({ connectedClient with
                state := connectedClient.state.increment_packet_identifier }, [], none)) :=
  claim_C5 Unit connectedClient 2 0 (by decide)

/-- Disconnected-transport variant of the sample transport. -/
def downTransport : Transport Unit :=
  { sampleTransport with is_connected := Except.ok false }

/-- Witness for C6: publish over a disconnected transport at concrete inputs. -/
theorem claim_C6_witness :
    (Client.publish downTransport sampleClient [116] [1, 2]).2.2 = none ∧
    (Client.publish downTransport sampleClient [116] [1, 2]).2.1 = [] ∧
    (Client.publish downTransport sampleClient [116] [1, 2]).1.transmit_buffer
      = sampleClient.transmit_buffer :=
  claim_C6 downTransport sampleClient [116] [1, 2] rfl

/-- Witness for C7: publish at a concrete client that is still awaiting the
handshake acknowledgment (protocol connected flag false) writes the encoded
frame anyway. -/
theorem claim_C7_witness :
    Client.publish sampleTransport sampleClient [116] [1, 2] =
      ({ sampleClient with
          transmit_buffer := pubFrame ++ sampleClient.transmit_buffer.drop pubFrame.length },
        [Action.writeS pubFrame],
        writeStep sampleTransport pubFrame) :=
  claim_C7 sampleTransport sampleClient [116] [1, 2] pubFrame rfl rfl

/-- Witness for C8: the reconnection performed by poll on a concrete
disconnected transport. -/
theorem claim_C8_witness :
    Client.poll downTransport sampleClient =
      ({ sampleClient with
          state := sampleClient.state.reset,
          packet_reader := { buffer := [] },
          transmit_buffer := connectFrame ++
            sampleClient.transmit_buffer.drop connectFrame.length },
        [Action.closeSock, Action.openSock, Action.connectSock, Action.writeS connectFrame],
        [], none) :=
  claim_C8 downTransport sampleClient connectFrame rfl rfl rfl rfl rfl rfl

/-- Witness for C9: publish over a disconnected transport leaves the concrete
client intact. -/
theorem claim_C9_witness :
    (Client.publish downTransport connectedClient [116] [1, 2]).1 = connectedClient :=
  claim_C9 downTransport connectedClient [116] [1, 2] rfl

/-- Witness for C10: the read action of a concrete poll carries at most 1024
bytes. -/
theorem claim_C10_witness :
    ([32, 2, 0, 0, 144, 3, 0, 1, 0] : List Nat).length ≤ 1024 :=
  claim_C10 sampleTransport sampleClient [32, 2, 0, 0, 144, 3, 0, 1, 0] rfl (by decide)

end Minimq
